import Mathlib

/-!
Verification of `src/bin/daod/demo/tx.py` (confidential transaction
builder/verifier) against its natural-language specification.

The Python file imports `ff_hash`, `pedersen_encrypt`, `sign`, `verify` from
the repository's `crypto` module and a curve adapter `ec`; those files are not
part of the staged sources, so they are modelled from the spec (Section 4.1,
4.2): a prime-order group whose points are coordinate triples with identity
`(0, 1, 0)` and negation flipping the middle coordinate (the representation
`tx.py` itself manipulates in `_check_value_commits`), a homomorphic Pedersen
commitment `commit(v, r) = v*G + r*H`, a deterministic hash into the field,
and a correct signature scheme.  Everything in `tx.py` itself is translated
directly from the source.
-/

set_option linter.unusedVariables false

namespace DarkfiTx

/-- Field elements.  The spec's scalar field and base field are both modelled
as `ZMod q` for the scalar-field order `q` (the demo uses plain integers
modulo the respective prime; no claim distinguishes the two moduli). -/
abbrev F (q : Nat) := ZMod q

/-- Curve points, written the way `tx.py` sees them: coordinate triples with
group identity `(0, 1, 0)` and negation `(x, y, z) -> (x, -y, z)`. -/
abbrev Point (q : Nat) := F q × F q × F q

namespace Crypto

/-- Modelled from the spec: the curve adapter's discrete-log map.  A triple
with third coordinate `0` is the point at infinity (the adapter's identity
`(0, 1, 0)` and its flipped form `(0, -1, 0)` both decode to `0`); a
normalized finite point stores its discrete log in the middle coordinate. -/
def ecDecode {q : Nat} (P : Point q) : F q :=
  if P.2.2 = 0 then 0 else P.2.1

/-- Modelled from the spec: the canonical representative of the group element
with discrete log `n`.  `ecEncode 0 = (0, 1, 0)` is the adapter's identity,
and for `n ≠ 0` negation of `(n*n, n, 1)` flips the middle coordinate to give
the representative of `-n`, as Section 4.1 requires. -/
def ecEncode {q : Nat} (n : F q) : Point q :=
  if n = 0 then (0, 1, 0) else (n * n, n, 1)

/-- Modelled from the spec: point addition of the external curve adapter. -/
def add {q : Nat} (P Q : Point q) : Point q :=
  ecEncode (ecDecode P + ecDecode Q)

/-- Modelled from the spec: scalar multiplication of the curve adapter. -/
def multiply {q : Nat} (s : F q) (P : Point q) : Point q :=
  ecEncode (s * ecDecode P)

/-- Modelled from the spec: the fixed generator `G`. -/
def G {q : Nat} : Point q := ecEncode 1

/-- Modelled from the spec: the second Pedersen generator `H`. -/
def H {q : Nat} : Point q := ecEncode 3

/-- Modelled from the spec: the base-field modulus `ec.p`, which `tx.py`
passes as the first argument of the coin hash. -/
def pModulus {q : Nat} : F q := (q : F q)

/-- Modelled from the spec: the Pedersen commitment
`pedersen_encrypt(v, r) = v*G + r*H` of the `crypto` module. -/
def pedersen_encrypt {q : Nat} (value blind : F q) : Point q :=
  add (multiply value G) (multiply blind H)

/-- Modelled from the spec: the variadic field-element hash `ff_hash` of the
`crypto` module, taken as an arbitrary concrete deterministic fold (no claim
relies on more than determinism, and call sites fix the arity). -/
def ff_hash {q : Nat} (xs : List (F q)) : F q :=
  xs.foldl (fun acc x => acc * 31 + x + 1) 0

/-- Signature values of the modelled signature scheme: the signed message
together with the signer's public key. -/
abbrev Sig (q : Nat) := List Nat × Point q

/-- Modelled from the spec: `sign(msg, sk)` of the `crypto` module; the model
is deterministic and correct (EUF-CMA security is not expressible here). -/
def sign {q : Nat} (msg : List Nat) (secret : F q) : Sig q :=
  (msg, multiply secret G)

/-- Modelled from the spec: `verify(msg, sig, pk)` of the `crypto` module;
accepts exactly the signature of `msg` under the secret key of `pk`. -/
def verify {q : Nat} (msg : List Nat) (signature : Sig q) (public : Point q) : Bool :=
  decide (signature = (msg, public))

/-- Placeholder for the `signature` attribute before `build`'s signing pass
assigns it (the Python objects simply lack the attribute until then). -/
def dummySig {q : Nat} : Sig q := ([], (0, 0, 0))

theorem ecDecode_ecEncode {q : Nat} (n : F q) : ecDecode (ecEncode n) = n := by
  by_cases h : n = 0
  · simp [ecEncode, ecDecode, h]
  · by_cases h1 : (1 : F q) = 0
    · have hs : Subsingleton (F q) := subsingleton_of_zero_eq_one h1.symm
      exact absurd (Subsingleton.elim n 0) h
    · simp [ecEncode, ecDecode, h, h1]

theorem ecEncode_injective {q : Nat} : Function.Injective (ecEncode (q := q)) := by
  intro a b hab
  have h := congrArg ecDecode hab
  simpa [ecDecode_ecEncode] using h

theorem ecEncode_zero {q : Nat} : ecEncode (0 : F q) = (0, 1, 0) := by
  simp [ecEncode]

theorem ecDecode_add {q : Nat} (P Q : Point q) :
    ecDecode (add P Q) = ecDecode P + ecDecode Q := by
  simp [add, ecDecode_ecEncode]

theorem add_ecEncode {q : Nat} (t : F q) (Q : Point q) :
    add (ecEncode t) Q = ecEncode (t + ecDecode Q) := by
  simp [add, ecDecode_ecEncode]

theorem ecDecode_multiply {q : Nat} (s : F q) (P : Point q) :
    ecDecode (multiply s P) = s * ecDecode P := by
  simp [multiply, ecDecode_ecEncode]

theorem ecDecode_pedersen {q : Nat} (v r : F q) :
    ecDecode (pedersen_encrypt v r) = v + r * 3 := by
  simp [pedersen_encrypt, ecDecode_add, ecDecode_multiply, G, H, ecDecode_ecEncode]

theorem pedersen_eq_ecEncode {q : Nat} (v r : F q) :
    pedersen_encrypt v r = ecEncode (v + r * 3) := by
  simp [pedersen_encrypt, add, ecDecode_multiply, G, H, ecDecode_ecEncode]

theorem verify_sign {q : Nat} (msg : List Nat) (secret : F q) :
    verify msg (sign msg secret) (multiply secret G) = true := by
  simp [verify, sign]

end Crypto

/-- A plaintext output note (`tx.py` builds it as a dynamic namespace). -/
structure Note (q : Nat) where
  serial : F q
  value : F q
  token_id : F q
  coin_blind : F q
  value_blind : F q
  token_blind : F q
  depends : F q
  attrs : F q
deriving DecidableEq

/-- The spec record appended by `TransactionBuilder.add_clear_input`. -/
structure ClearInputSpec (q : Nat) where
  value : F q
  token_id : F q
  signature_secret : F q
deriving DecidableEq

/-- The spec record appended by `TransactionBuilder.add_input`. -/
structure ShieldedInputSpec (q : Nat) where
  all_coins : List (F q)
  secret : F q
  note : Note q
deriving DecidableEq

/-- The spec record appended by `TransactionBuilder.add_output`. -/
structure OutputSpec (q : Nat) where
  value : F q
  token_id : F q
  public : Point q
  depends : F q
  attrs : F q
deriving DecidableEq

/-- `BurnProof` of `tx.py`: witness data of a shielded spend. -/
structure BurnProof (q : Nat) where
  value : F q
  token_id : F q
  value_blind : F q
  token_blind : F q
  serial : F q
  coin_blind : F q
  secret : F q
  depends : F q
  attrs : F q
  all_coins : List (F q)
  signature_secret : F q
deriving DecidableEq

/-- The revealed view computed by `BurnProof.get_revealed`. -/
structure BurnRevealed (q : Nat) where
  nullifier : F q
  value_commit : Point q
  token_commit : Point q
  all_coins : List (F q)
  signature_public : Point q
deriving DecidableEq

/-- `MintProof` of `tx.py`: witness data of a fresh output coin. -/
structure MintProof (q : Nat) where
  value : F q
  token_id : F q
  value_blind : F q
  token_blind : F q
  serial : F q
  coin_blind : F q
  public : Point q
  depends : F q
  attrs : F q
deriving DecidableEq

/-- The revealed view computed by `MintProof.get_revealed`. -/
structure MintRevealed (q : Nat) where
  coin : F q
  value_commit : Point q
  token_commit : Point q
deriving DecidableEq

/-- `TransactionClearInput` records built in `TransactionBuilder.build`. -/
structure TxClearInput (q : Nat) where
  value : F q
  token_id : F q
  value_blind : F q
  token_blind : F q
  signature_public : Point q
  signature : Crypto.Sig q
deriving DecidableEq

/-- `TransactionInput` records built in `TransactionBuilder.build`. -/
structure TxInput (q : Nat) where
  burn_proof : BurnProof q
  revealed : BurnRevealed q
  signature : Crypto.Sig q
deriving DecidableEq

/-- `TransactionOutput` records built in `TransactionBuilder.build`. -/
structure TxOutput (q : Nat) where
  mint_proof : MintProof q
  revealed : MintRevealed q
  enc_note : Note q
deriving DecidableEq

/-- The `Transaction` value object of `tx.py`. -/
structure Transaction (q : Nat) where
  clear_inputs : List (TxClearInput q)
  inputs : List (TxInput q)
  outputs : List (TxOutput q)
deriving DecidableEq

/-- `TransactionBuilder` state: the three spec lists. -/
structure TransactionBuilder (q : Nat) where
  clear_inputs : List (ClearInputSpec q)
  inputs : List (ShieldedInputSpec q)
  outputs : List (OutputSpec q)
deriving DecidableEq

/-- The random draws `build()` makes, one stream per draw site: the shared
`token_blind`, the i-th clear input's `value_blind`, the j-th shielded
input's fresh `signature_secret`, the i-th output's `value_blind` (used
only for non-last outputs), `serial` and `coin_blind`.  A claim about
"every transaction produced by build()" quantifies over this record. -/
structure Rng (q : Nat) where
  tokenBlind : F q
  clearBlind : Nat → F q
  sigSecret : Nat → F q
  outBlind : Nat → F q
  serial : Nat → F q
  coinBlind : Nat → F q

namespace BurnProof

/-- `BurnProof.get_revealed` (tx.py lines 220-236). -/
def get_revealed {q : Nat} (self : BurnProof q) : BurnRevealed q where
  nullifier := Crypto.ff_hash [self.secret, self.serial]
  value_commit := Crypto.pedersen_encrypt self.value self.value_blind
  token_commit := Crypto.pedersen_encrypt self.token_id self.token_blind
  all_coins := self.all_coins
  signature_public := Crypto.multiply self.signature_secret Crypto.G

/-- The coin commitment `BurnProof.verify` recomputes from its witness
(tx.py lines 241-252). -/
def recomputed_coin {q : Nat} (self : BurnProof q) : F q :=
  let public_key := Crypto.multiply self.secret Crypto.G
  Crypto.ff_hash [Crypto.pModulus, public_key.1, public_key.2.1, self.value,
    self.token_id, self.serial, self.coin_blind, self.depends, self.attrs]

/-- `BurnProof.verify` (tx.py lines 238-263): the Merkle-root membership
check followed by the five revealed-field comparisons. -/
def verify {q : Nat} (self : BurnProof q) (public : BurnRevealed q) : Bool :=
  let revealed := self.get_revealed
  let coin := self.recomputed_coin
  if coin ∈ self.all_coins then
    decide (revealed.nullifier = public.nullifier) &&
    decide (revealed.value_commit = public.value_commit) &&
    decide (revealed.token_commit = public.token_commit) &&
    decide (revealed.all_coins = public.all_coins) &&
    decide (revealed.signature_public = public.signature_public)
  else false

end BurnProof

namespace MintProof

/-- `MintProof.get_revealed` (tx.py lines 281-302). -/
def get_revealed {q : Nat} (self : MintProof q) : MintRevealed q where
  coin := Crypto.ff_hash [Crypto.pModulus, self.public.1, self.public.2.1,
    self.value, self.token_id, self.serial, self.coin_blind, self.depends,
    self.attrs]
  value_commit := Crypto.pedersen_encrypt self.value self.value_blind
  token_commit := Crypto.pedersen_encrypt self.token_id self.token_blind

/-- `MintProof.verify` (tx.py lines 304-310). -/
def verify {q : Nat} (self : MintProof q) (public : MintRevealed q) : Bool :=
  let revealed := self.get_revealed
  decide (revealed.coin = public.coin) &&
  decide (revealed.value_commit = public.value_commit) &&
  decide (revealed.token_commit = public.token_commit)

end MintProof

namespace Transaction

/-- `Transaction.partial_encode` (tx.py lines 134-135): the literal byte
string `b"hello"`, whatever the transaction. -/
def partial_encode {q : Nat} (self : Transaction q) : List Nat :=
  [104, 101, 108, 108, 111]

/-- `Transaction._check_value_commits` (tx.py lines 159-174). -/
def _check_value_commits {q : Nat} (self : Transaction q) : Bool :=
  let t1 := self.clear_inputs.foldl
    (fun acc input => Crypto.add acc
      (Crypto.pedersen_encrypt input.value input.value_blind))
    ((0 : F q), (1 : F q), (0 : F q))
  let t2 := self.inputs.foldl
    (fun acc input => Crypto.add acc input.revealed.value_commit) t1
  let t3 := self.outputs.foldl
    (fun acc output =>
      let v := output.revealed.value_commit
      Crypto.add acc (v.1, -v.2.1, v.2.2)) t2
  decide (t3 = ((0 : F q), (1 : F q), (0 : F q)))

/-- `Transaction._check_proofs` (tx.py lines 176-183). -/
def _check_proofs {q : Nat} (self : Transaction q) : Bool :=
  self.inputs.all (fun input => input.burn_proof.verify input.revealed) &&
  self.outputs.all (fun output => output.mint_proof.verify output.revealed)

/-- `Transaction._verify_token_commitments` (tx.py lines 185-199); `none`
models the `assert len(self.outputs) > 0` failing. -/
def _verify_token_commitments {q : Nat} (self : Transaction q) : Option Bool :=
  match self.outputs with
  | [] => none
  | output0 :: _ =>
    let token_commit_value := output0.revealed.token_commit
    some (self.clear_inputs.all (fun input =>
        decide (Crypto.pedersen_encrypt input.token_id input.token_blind
          = token_commit_value)) &&
      self.inputs.all (fun input =>
        decide (input.revealed.token_commit = token_commit_value)) &&
      self.outputs.all (fun output =>
        decide (output.revealed.token_commit = token_commit_value)))

/-- The signature loops of `Transaction.verify` (tx.py lines 147-155):
every clear-input signature checks against its `signature_public` and every
shielded-input signature against its `revealed.signature_public`. -/
def signatures_pass {q : Nat} (self : Transaction q) : Bool :=
  let unsigned_tx_data := self.partial_encode
  self.clear_inputs.all (fun input =>
    Crypto.verify unsigned_tx_data input.signature input.signature_public) &&
  self.inputs.all (fun input =>
    Crypto.verify unsigned_tx_data input.signature
      input.revealed.signature_public)

end Transaction

/-- The result of `Transaction.verify`: the Python function returns either a
pair `(ok, reason)` or (in the signature loops) the bare boolean `False`. -/
inductive VerifyResult where
  | pair (ok : Bool) (reason : Option String)
  | bare (ok : Bool)
deriving DecidableEq

namespace Transaction

/-- `Transaction.verify` (tx.py lines 137-157).  `none` models the
`AssertionError` escaping from `_verify_token_commitments` on a transaction
without outputs. -/
def verify {q : Nat} (self : Transaction q) : Option VerifyResult :=
  if self._check_value_commits = false then
    some (.pair false (some "value commits do not match"))
  else if self._check_proofs = false then
    some (.pair false (some "proofs failed to verify"))
  else
    match self._verify_token_commitments with
    | none => none
    | some ok =>
      if ok = false then some (.pair false (some "token ID mismatch"))
      else if self.signatures_pass then some (.pair true none)
      else some (.bare false)

end Transaction

namespace TransactionBuilder

/-- `TransactionBuilder.add_clear_input` (tx.py lines 13-18). -/
def add_clear_input {q : Nat} (self : TransactionBuilder q) (value token_id
    signature_secret : F q) : TransactionBuilder q :=
  { self with clear_inputs :=
      self.clear_inputs ++ [⟨value, token_id, signature_secret⟩] }

/-- `TransactionBuilder.add_input` (tx.py lines 20-25). -/
def add_input {q : Nat} (self : TransactionBuilder q) (all_coins : List (F q))
    (secret : F q) (note : Note q) : TransactionBuilder q :=
  { self with inputs := self.inputs ++ [⟨all_coins, secret, note⟩] }

/-- `TransactionBuilder.add_output` (tx.py lines 27-34). -/
def add_output {q : Nat} (self : TransactionBuilder q) (value token_id : F q)
    (public : Point q) (depends attrs : F q) : TransactionBuilder q :=
  { self with outputs := self.outputs ++ [⟨value, token_id, public, depends, attrs⟩] }

/-- `TransactionBuilder.compute_remainder_blind` (tx.py lines 36-42); the
Python `% self.ec.order` is the `ZMod q` arithmetic itself. -/
def compute_remainder_blind {q : Nat} (clear_inputs : List (TxClearInput q))
    (input_blinds output_blinds : List (F q)) : F q :=
  (clear_inputs.map (fun input => input.value_blind)).sum
    + input_blinds.sum - output_blinds.sum

/-- The clear-input loop of `build` (tx.py lines 48-57): the counter `i`
selects the fresh `value_blind` drawn for each clear input. -/
def buildTxClearInputs {q : Nat} (rng : Rng q) (token_blind : F q) :
    Nat → List (ClearInputSpec q) → List (TxClearInput q)
  | _, [] => []
  | i, input :: rest =>
    { value := input.value
      token_id := input.token_id
      value_blind := rng.clearBlind i
      token_blind := token_blind
      signature_public := Crypto.multiply input.signature_secret Crypto.G
      signature := Crypto.dummySig } :: buildTxClearInputs rng token_blind (i + 1) rest

/-- The `BurnProof` constructed for one shielded input spec (tx.py lines
70-74): the note's witness fields and the note's own `value_blind`, the
builder's shared `token_blind`, and the freshly drawn `signature_secret`. -/
def inputBurnProof {q : Nat} (input : ShieldedInputSpec q)
    (token_blind signature_secret : F q) : BurnProof q where
  value := input.note.value
  token_id := input.note.token_id
  value_blind := input.note.value_blind
  token_blind := token_blind
  serial := input.note.serial
  coin_blind := input.note.coin_blind
  secret := input.secret
  depends := input.note.depends
  attrs := input.note.attrs
  all_coins := input.all_coins
  signature_secret := signature_secret

/-- The shielded-input loop of `build` (tx.py lines 59-76): each input gets a
fresh `signature_secret` and a `BurnProof` over the note's witness. -/
def buildTxInputs {q : Nat} (rng : Rng q) (token_blind : F q) :
    Nat → List (ShieldedInputSpec q) → List (TxInput q)
  | _, [] => []
  | j, input :: rest =>
    let bp := inputBurnProof input token_blind (rng.sigSecret j)
    { burn_proof := bp
      revealed := bp.get_revealed
      signature := Crypto.dummySig } :: buildTxInputs rng token_blind (j + 1) rest

/-- The fresh `Note` built for the i-th output (tx.py lines 88-96). -/
def outputNote {q : Nat} (rng : Rng q) (token_blind : F q) (i : Nat)
    (value_blind : F q) (output : OutputSpec q) : Note q where
  serial := rng.serial i
  value := output.value
  token_id := output.token_id
  coin_blind := rng.coinBlind i
  value_blind := value_blind
  token_blind := token_blind
  depends := output.depends
  attrs := output.attrs

/-- The `MintProof` constructed over an output note (tx.py lines 101-104). -/
def noteMintProof {q : Nat} (note : Note q) (public : Point q) : MintProof q where
  value := note.value
  token_id := note.token_id
  value_blind := note.value_blind
  token_blind := note.token_blind
  serial := note.serial
  coin_blind := note.coin_blind
  public := public
  depends := note.depends
  attrs := note.attrs

/-- The `TransactionOutput` record for one output spec (tx.py lines 88-112). -/
def outputRecord {q : Nat} (rng : Rng q) (token_blind : F q) (i : Nat)
    (value_blind : F q) (output : OutputSpec q) : TxOutput q :=
  let note := outputNote rng token_blind i value_blind output
  let mp := noteMintProof note output.public
  { mint_proof := mp
    revealed := mp.get_revealed
    enc_note := note }

/-- The output loop of `build` (tx.py lines 79-112): `k` is the number of
outputs, `acc` the `output_blinds` list accumulated so far; the last output
(index `k - 1`) takes the remainder blind, every other output a fresh draw. -/
def buildTxOutputs {q : Nat} (rng : Rng q) (token_blind : F q) (k : Nat)
    (clear_inputs : List (TxClearInput q)) (input_blinds : List (F q)) :
    Nat → List (F q) → List (OutputSpec q) → List (TxOutput q)
  | _, _, [] => []
  | i, acc, output :: rest =>
    let value_blind :=
      if i = k - 1 then compute_remainder_blind clear_inputs input_blinds acc
      else rng.outBlind i
    outputRecord rng token_blind i value_blind output ::
      buildTxOutputs rng token_blind k clear_inputs input_blinds (i + 1)
        (acc ++ [value_blind]) rest

/-- The first signing pass of `build` (tx.py lines 115-118): zip the built
clear inputs with their specs and sign with each spec's `signature_secret`. -/
def signClearInputs {q : Nat} (msg : List Nat) :
    List (TxClearInput q) → List (ClearInputSpec q) → List (TxClearInput q)
  | input :: inputs, info :: infos =>
    { input with signature := Crypto.sign msg info.signature_secret } ::
      signClearInputs msg inputs infos
  | _, _ => []

/-- The second signing pass of `build` (tx.py lines 119-121): the j-th
shielded input is signed with the j-th generated `signature_secret`. -/
def signTxInputs {q : Nat} (rng : Rng q) (msg : List Nat) :
    Nat → List (TxInput q) → List (TxInput q)
  | _, [] => []
  | j, input :: inputs =>
    { input with signature := Crypto.sign msg (rng.sigSecret j) } ::
      signTxInputs rng msg (j + 1) inputs

/-- `TransactionBuilder.build` (tx.py lines 44-123).  `none` models the
`assert self.outputs` and the per-output `assert mint_proof.verify(...)`
failing; the random draws come from `rng`. -/
def build {q : Nat} (self : TransactionBuilder q) (rng : Rng q) :
    Option (Transaction q) :=
  let token_blind := rng.tokenBlind
  let tx_clear := buildTxClearInputs rng token_blind 0 self.clear_inputs
  let input_blinds := self.inputs.map (fun input => input.note.value_blind)
  let tx_inputs := buildTxInputs rng token_blind 0 self.inputs
  if self.outputs = [] then none
  else
    let tx_outputs := buildTxOutputs rng token_blind self.outputs.length
      tx_clear input_blinds 0 [] self.outputs
    if tx_outputs.all (fun output => output.mint_proof.verify output.revealed) then
      let tx0 : Transaction q := ⟨tx_clear, tx_inputs, tx_outputs⟩
      let unsigned_tx_data := tx0.partial_encode
      some ⟨signClearInputs unsigned_tx_data tx_clear self.clear_inputs,
        signTxInputs rng unsigned_tx_data 0 tx_inputs, tx_outputs⟩
    else none

end TransactionBuilder

/-- The coin commitment determined by a shielded input spec: what the burn
proof built for it will recompute (tx.py lines 241-252 on the builder's
data), with `pk = secret * G`. -/
def ShieldedInputSpec.coin {q : Nat} (sp : ShieldedInputSpec q) : F q :=
  let pk := Crypto.multiply sp.secret Crypto.G
  Crypto.ff_hash [Crypto.pModulus, pk.1, pk.2.1, sp.note.value,
    sp.note.token_id, sp.note.serial, sp.note.coin_blind, sp.note.depends,
    sp.note.attrs]

/-- Every token commitment a transaction carries, in the order
`_verify_token_commitments` checks them: the recomputed clear-input
commitments, the shielded inputs' revealed ones, the outputs' revealed
ones. -/
def Transaction.tokenCommitments {q : Nat} (tx : Transaction q) : List (Point q) :=
  tx.clear_inputs.map (fun input =>
      Crypto.pedersen_encrypt input.token_id input.token_blind)
    ++ tx.inputs.map (fun input => input.revealed.token_commit)
    ++ tx.outputs.map (fun output => output.revealed.token_commit)

/-! Concrete fixtures over `ZMod 5`, used to instantiate the general
theorems and to exhibit concrete behaviour of the code. -/

/-- A concrete random stream. -/
def rngW : Rng 5 :=
  ⟨2, fun i => i + 1, fun j => j + 3, fun i => 2 * i + 1, fun i => i,
    fun i => i + 4⟩

/-- A concrete owned note: value 3, token id 2, value blind 4, its own
token blind 1 (distinct from `rngW.tokenBlind = 2`). -/
def noteW : Note 5 := ⟨1, 3, 2, 0, 4, 1, 0, 0⟩

/-- The coin commitment of `noteW` under secret key 2. -/
def coinW : F 5 := ShieldedInputSpec.coin ⟨[], 2, noteW⟩

/-- A shielded input spec whose coin is in its coin set. -/
def spW : ShieldedInputSpec 5 := ⟨[coinW], 2, noteW⟩

/-- A balanced builder: clear input of value 1, shielded input of value 3,
outputs of values 1 and 3, all on token id 2. -/
def bRT : TransactionBuilder 5 :=
  ⟨[⟨1, 2, 3⟩], [spW], [⟨1, 2, (0, 0, 0), 0, 0⟩, ⟨3, 2, (1, 1, 1), 0, 0⟩]⟩

/-- The transaction `bRT` builds under `rngW`. -/
def txRT : Transaction 5 := (bRT.build rngW).getD ⟨[], [], []⟩

/-- An imbalanced builder: clear input of value 1 against an output of
value 2. -/
def bImb : TransactionBuilder 5 :=
  ⟨[⟨1, 2, 3⟩], [], [⟨2, 2, (0, 0, 0), 0, 0⟩]⟩

/-- `txRT` with every clear-input signature replaced by garbage: passes the
first three gates, fails signature verification. -/
def txSig : Transaction 5 :=
  { txRT with clear_inputs :=
      txRT.clear_inputs.map (fun c => { c with signature := ([], (0, 0, 0)) }) }

/-- A transaction with one clear input of value 1 (and no outputs). -/
def txZero : Transaction 5 :=
  ⟨[⟨1, 2, 0, 0, (0, 0, 0), ([], (0, 0, 0))⟩], [], []⟩

/-- `txZero` with value 2 instead of 1 in its clear input: it differs from
`txZero` in a non-signature field while the signatures agree. -/
def txZero2 : Transaction 5 :=
  ⟨[⟨2, 2, 0, 0, (0, 0, 0), ([], (0, 0, 0))⟩], [], []⟩

/-- The empty transaction. -/
def txEmptyW : Transaction 5 := ⟨[], [], []⟩

/-- A builder spending a note whose coin is NOT in its (empty) coin set,
with balancing output value 3. -/
def bFor : TransactionBuilder 5 :=
  ⟨[], [⟨[], 2, noteW⟩], [⟨3, 2, (0, 0, 0), 0, 0⟩]⟩

/-- The transaction `bFor` builds under `rngW`. -/
def txFor : Transaction 5 := (bFor.build rngW).getD ⟨[], [], []⟩

/-- A burn proof over `noteW` whose coin set is empty. -/
def bpF : BurnProof 5 := TransactionBuilder.inputBurnProof ⟨[], 2, noteW⟩ 2 3

/-- The revealed view of `bpF`. -/
def claimF : BurnRevealed 5 := bpF.get_revealed

section Lemmas

open Crypto

variable {q : Nat}

theorem ecDecode_negY (P : Point q) :
    ecDecode (P.1, -P.2.1, P.2.2) = -ecDecode P := by
  by_cases h : P.2.2 = 0 <;> simp [ecDecode, h]

theorem foldl_add_ecEncode {α : Type} (g : α → Point q) (l : List α) (t : F q) :
    l.foldl (fun acc x => Crypto.add acc (g x)) (ecEncode t)
      = ecEncode (t + (l.map (fun x => ecDecode (g x))).sum) := by
  induction l generalizing t with
  | nil => simp
  | cons x xs ih => simp [add_ecEncode, ih, add_assoc]

theorem sum_map_neg {α : Type} (f : α → F q) (l : List α) :
    (l.map (fun x => -f x)).sum = -(l.map f).sum := by
  induction l with
  | nil => simp
  | cons x xs ih => simp [ih]; ring

/-- `_check_value_commits` holds exactly when the discrete logs of the
commitments balance: clear inputs plus shielded inputs minus outputs is
zero. -/
theorem check_value_commits_iff (tx : Transaction q) :
    tx._check_value_commits = true ↔
      (tx.clear_inputs.map (fun input =>
          ecDecode (pedersen_encrypt input.value input.value_blind))).sum
        + (tx.inputs.map (fun input => ecDecode input.revealed.value_commit)).sum
        - (tx.outputs.map (fun output =>
            ecDecode output.revealed.value_commit)).sum = 0 := by
  have h0 : ((0 : F q), (1 : F q), (0 : F q)) = ecEncode (0 : F q) :=
    ecEncode_zero.symm
  rw [Transaction._check_value_commits]
  rw [h0, foldl_add_ecEncode, foldl_add_ecEncode, foldl_add_ecEncode]
  rw [decide_eq_true_iff, ecEncode_injective.eq_iff]
  have hneg : (tx.outputs.map (fun output =>
      ecDecode ((output.revealed.value_commit.1,
        -output.revealed.value_commit.2.1,
        output.revealed.value_commit.2.2) : Point q))).sum
      = -(tx.outputs.map (fun output =>
          ecDecode output.revealed.value_commit)).sum := by
    rw [show (fun (output : TxOutput q) =>
        ecDecode ((output.revealed.value_commit.1,
          -output.revealed.value_commit.2.1,
          output.revealed.value_commit.2.2) : Point q))
        = fun output => -ecDecode output.revealed.value_commit from
        funext fun output => ecDecode_negY _]
    exact sum_map_neg _ _
  rw [hneg]
  constructor
  · intro h
    linear_combination h
  · intro h
    linear_combination h

/-- A mint proof always verifies against its own revealed view (the
builder's self-check, tx.py line 106). -/
theorem mint_proof_verify_self (mp : MintProof q) :
    mp.verify mp.get_revealed = true := by
  simp [MintProof.verify]

/-- A burn proof checked against its own revealed view reduces to the coin
membership test: the five field comparisons always succeed. -/
theorem burn_proof_verify_self (bp : BurnProof q) :
    bp.verify bp.get_revealed = decide (bp.recomputed_coin ∈ bp.all_coins) := by
  by_cases h : bp.recomputed_coin ∈ bp.all_coins <;>
    simp [BurnProof.verify, h]

/-- A burn proof whose recomputed coin is not in its coin set verifies
against no claim. -/
theorem BurnProof.verify_of_foreign_coin (bp : BurnProof q)
    (claim : BurnRevealed q) (h : bp.recomputed_coin ∉ bp.all_coins) :
    bp.verify claim = false := by
  simp [BurnProof.verify, h]

end Lemmas

section BuilderLemmas

open Crypto TransactionBuilder

variable {q : Nat}

theorem mem_signClear_build (rng : Rng q) (tb : F q) (msg : List Nat) :
    ∀ (specs : List (ClearInputSpec q)) (i : Nat) (c : TxClearInput q),
      c ∈ signClearInputs msg (buildTxClearInputs rng tb i specs) specs →
      ∃ sp ∈ specs, ∃ n : Nat,
        c = { value := sp.value, token_id := sp.token_id,
              value_blind := rng.clearBlind n, token_blind := tb,
              signature_public := Crypto.multiply sp.signature_secret Crypto.G,
              signature := Crypto.sign msg sp.signature_secret } := by
  intro specs
  induction specs with
  | nil => intro i c hc; simp [buildTxClearInputs, signClearInputs] at hc
  | cons s rest ih =>
    intro i c hc
    rw [buildTxClearInputs, signClearInputs] at hc
    rcases List.mem_cons.mp hc with h | h
    · exact ⟨s, List.mem_cons_self s rest, i, h⟩
    · rcases ih (i + 1) c h with ⟨sp, hsp, n, hn⟩
      exact ⟨sp, List.mem_cons_of_mem s hsp, n, hn⟩

theorem sum_decode_signClear_build (rng : Rng q) (tb : F q) (msg : List Nat) :
    ∀ (specs : List (ClearInputSpec q)) (i : Nat),
      ((signClearInputs msg (buildTxClearInputs rng tb i specs) specs).map
        (fun c => ecDecode (pedersen_encrypt c.value c.value_blind))).sum
      = (specs.map (fun sp => sp.value)).sum
        + ((buildTxClearInputs rng tb i specs).map
            (fun c => c.value_blind)).sum * 3 := by
  intro specs
  induction specs with
  | nil => intro i; simp [buildTxClearInputs, signClearInputs]
  | cons s rest ih =>
    intro i
    rw [buildTxClearInputs, signClearInputs]
    simp only [List.map_cons, List.sum_cons]
    rw [ih (i + 1), ecDecode_pedersen]
    ring

theorem blinds_signClear_build (rng : Rng q) (tb : F q) (msg : List Nat) :
    ∀ (specs : List (ClearInputSpec q)) (i : Nat),
      (signClearInputs msg (buildTxClearInputs rng tb i specs) specs).map
          (fun c => c.value_blind)
        = (buildTxClearInputs rng tb i specs).map (fun c => c.value_blind) := by
  intro specs
  induction specs with
  | nil => intro i; simp [buildTxClearInputs, signClearInputs]
  | cons s rest ih =>
    intro i
    rw [buildTxClearInputs, signClearInputs]
    simp only [List.map_cons, ih (i + 1)]

theorem mem_signTx_build (rng : Rng q) (tb : F q) (msg : List Nat) :
    ∀ (specs : List (ShieldedInputSpec q)) (j : Nat) (t : TxInput q),
      t ∈ signTxInputs rng msg j (buildTxInputs rng tb j specs) →
      ∃ sp ∈ specs, ∃ n : Nat,
        t = { burn_proof := inputBurnProof sp tb (rng.sigSecret n),
              revealed := (inputBurnProof sp tb (rng.sigSecret n)).get_revealed,
              signature := Crypto.sign msg (rng.sigSecret n) } := by
  intro specs
  induction specs with
  | nil => intro j t ht; simp [buildTxInputs, signTxInputs] at ht
  | cons s rest ih =>
    intro j t ht
    rw [buildTxInputs, signTxInputs] at ht
    rcases List.mem_cons.mp ht with h | h
    · exact ⟨s, List.mem_cons_self s rest, j, h⟩
    · rcases ih (j + 1) t h with ⟨sp, hsp, n, hn⟩
      exact ⟨sp, List.mem_cons_of_mem s hsp, n, hn⟩

theorem sum_decode_signTx_build (rng : Rng q) (tb : F q) (msg : List Nat) :
    ∀ (specs : List (ShieldedInputSpec q)) (j : Nat),
      ((signTxInputs rng msg j (buildTxInputs rng tb j specs)).map
        (fun t => ecDecode t.revealed.value_commit)).sum
      = (specs.map (fun sp => sp.note.value)).sum
        + (specs.map (fun sp => sp.note.value_blind)).sum * 3 := by
  intro specs
  induction specs with
  | nil => intro j; simp [buildTxInputs, signTxInputs]
  | cons s rest ih =>
    intro j
    rw [buildTxInputs, signTxInputs]
    simp only [List.map_cons, List.sum_cons, ih (j + 1), BurnProof.get_revealed,
      inputBurnProof, ecDecode_pedersen]
    ring

theorem forall2_signTx_build (rng : Rng q) (tb : F q) (msg : List Nat) :
    ∀ (specs : List (ShieldedInputSpec q)) (j : Nat),
      List.Forall₂ (fun (ti : TxInput q) (sp : ShieldedInputSpec q) =>
          ∃ s : F q, ti.burn_proof = inputBurnProof sp tb s
            ∧ ti.signature = Crypto.sign msg s
            ∧ ti.revealed = ti.burn_proof.get_revealed)
        (signTxInputs rng msg j (buildTxInputs rng tb j specs)) specs := by
  intro specs
  induction specs with
  | nil => intro j; rw [buildTxInputs, signTxInputs]; exact List.Forall₂.nil
  | cons s rest ih =>
    intro j
    rw [buildTxInputs, signTxInputs]
    exact List.Forall₂.cons ⟨rng.sigSecret j, rfl, rfl, rfl⟩ (ih (j + 1))

theorem buildTxOutputs_length (rng : Rng q) (tb : F q) (k : Nat)
    (clear : List (TxClearInput q)) (ib : List (F q)) :
    ∀ (specs : List (OutputSpec q)) (i : Nat) (acc : List (F q)),
      (buildTxOutputs rng tb k clear ib i acc specs).length = specs.length := by
  intro specs
  induction specs with
  | nil => intro i acc; rw [buildTxOutputs]; rfl
  | cons s rest ih =>
    intro i acc
    rw [buildTxOutputs]
    simp [ih]

theorem mem_buildTxOutputs (rng : Rng q) (tb : F q) (k : Nat)
    (clear : List (TxClearInput q)) (ib : List (F q)) :
    ∀ (specs : List (OutputSpec q)) (i : Nat) (acc : List (F q))
      (o : TxOutput q), o ∈ buildTxOutputs rng tb k clear ib i acc specs →
      ∃ sp ∈ specs, ∃ n : Nat, ∃ bl : F q, o = outputRecord rng tb n bl sp := by
  intro specs
  induction specs with
  | nil => intro i acc o ho; rw [buildTxOutputs] at ho; simp at ho
  | cons s rest ih =>
    intro i acc o ho
    rw [buildTxOutputs] at ho
    rcases List.mem_cons.mp ho with h | h
    · exact ⟨s, List.mem_cons_self s rest, i, _, h⟩
    · rcases ih (i + 1) _ o h with ⟨sp, hsp, n, bl, hbl⟩
      exact ⟨sp, List.mem_cons_of_mem s hsp, n, bl, hbl⟩

theorem buildTxOutputs_blind_sum (rng : Rng q) (tb : F q) (k : Nat)
    (clear : List (TxClearInput q)) (ib : List (F q)) :
    ∀ (specs : List (OutputSpec q)) (i : Nat) (acc : List (F q)),
      i + specs.length = k → specs ≠ [] →
      acc.sum + ((buildTxOutputs rng tb k clear ib i acc specs).map
          (fun o => o.enc_note.value_blind)).sum
        = (clear.map (fun c => c.value_blind)).sum + ib.sum := by
  intro specs
  induction specs with
  | nil => intro i acc _ hne; exact absurd rfl hne
  | cons s rest ih =>
    intro i acc hk hne
    rw [buildTxOutputs]
    cases rest with
    | nil =>
      have hi : i = k - 1 := by
        simp only [List.length_cons, List.length_nil] at hk
        omega
      simp only [List.map_cons, List.sum_cons, hi, eq_self_iff_true, if_true,
        buildTxOutputs, List.map_nil, List.sum_nil, outputRecord, outputNote,
        compute_remainder_blind]
      ring
    | cons s2 rest2 =>
      have hi : ¬(i = k - 1) := by
        simp only [List.length_cons] at hk
        omega
      have hk2 : (i + 1) + (s2 :: rest2).length = k := by
        simp only [List.length_cons] at hk ⊢
        omega
      have hsum := ih (i + 1) (acc ++ [rng.outBlind i]) hk2 (by simp)
      simp only [if_neg hi, List.map_cons, List.sum_cons, outputRecord,
        outputNote] at hsum ⊢
      rw [List.sum_append] at hsum
      simp only [List.sum_cons, List.sum_nil] at hsum
      linear_combination hsum

theorem buildTxOutputs_decode_sum (rng : Rng q) (tb : F q) (k : Nat)
    (clear : List (TxClearInput q)) (ib : List (F q)) :
    ∀ (specs : List (OutputSpec q)) (i : Nat) (acc : List (F q)),
      ((buildTxOutputs rng tb k clear ib i acc specs).map
        (fun o => ecDecode o.revealed.value_commit)).sum
      = (specs.map (fun sp => sp.value)).sum
        + ((buildTxOutputs rng tb k clear ib i acc specs).map
            (fun o => o.enc_note.value_blind)).sum * 3 := by
  intro specs
  induction specs with
  | nil => intro i acc; rw [buildTxOutputs]; simp
  | cons s rest ih =>
    intro i acc
    rw [buildTxOutputs]
    simp only [List.map_cons, List.sum_cons, ih (i + 1), outputRecord,
      outputNote, noteMintProof, MintProof.get_revealed, ecDecode_pedersen]
    ring

theorem buildTxOutputs_take_blinds (rng : Rng q) (tb : F q) (k : Nat)
    (clear : List (TxClearInput q)) (ib : List (F q)) :
    ∀ (specs : List (OutputSpec q)) (i : Nat) (acc : List (F q)),
      i + specs.length = k →
      ((buildTxOutputs rng tb k clear ib i acc specs).take
          (specs.length - 1)).map (fun o => o.enc_note.value_blind)
        = (List.range' i (specs.length - 1)).map rng.outBlind := by
  intro specs
  induction specs with
  | nil => intro i acc _; rw [buildTxOutputs]; simp
  | cons s rest ih =>
    intro i acc hk
    rw [buildTxOutputs]
    cases rest with
    | nil => simp [List.range']
    | cons s2 rest2 =>
      have hi : ¬(i = k - 1) := by
        simp only [List.length_cons] at hk
        omega
      have hk2 : (i + 1) + (s2 :: rest2).length = k := by
        simp only [List.length_cons] at hk ⊢
        omega
      have ih2 := ih (i + 1) (acc ++ [rng.outBlind i]) hk2
      simp only [List.length_cons, Nat.add_sub_cancel] at ih2
      simp only [List.length_cons, Nat.add_sub_cancel, List.take_succ_cons,
        List.map_cons, if_neg hi, List.range']
      rw [ih2]
      simp [outputRecord, outputNote]

theorem sum_map_take_getLast {α : Type} (f : α → F q) :
    ∀ (l : List α) (h : l ≠ []),
      (l.map f).sum
        = ((l.take (l.length - 1)).map f).sum + f (l.getLast h) := by
  intro l
  induction l with
  | nil => intro h; exact absurd rfl h
  | cons x xs ih =>
    intro h
    cases xs with
    | nil => simp
    | cons y ys =>
      have hys : y :: ys ≠ [] := by simp
      rw [List.getLast_cons hys]
      simp only [List.map_cons, List.sum_cons, List.length_cons,
        Nat.add_sub_cancel, List.take_succ_cons]
      have ih2 := ih hys
      simp only [List.length_cons, Nat.add_sub_cancel, List.map_cons,
        List.sum_cons] at ih2
      rw [ih2]
      ring

/-- `build` fails (the Python `assert self.outputs` raises) exactly when the
builder holds no outputs. -/
theorem build_outputs_ne_nil (b : TransactionBuilder q) (rng : Rng q)
    (tx : Transaction q) (h : b.build rng = some tx) : b.outputs ≠ [] := by
  intro hnil
  simp [TransactionBuilder.build, hnil] at h

/-- The transaction `build` returns, spelled out: the builder's mint-proof
self-checks always pass, so with a nonempty output list `build` reaches the
signing passes and returns the signed transaction. -/
theorem build_eq_some (b : TransactionBuilder q) (rng : Rng q)
    (h : b.outputs ≠ []) :
    b.build rng = some
      ⟨signClearInputs [104, 101, 108, 108, 111]
          (buildTxClearInputs rng rng.tokenBlind 0 b.clear_inputs)
          b.clear_inputs,
        signTxInputs rng [104, 101, 108, 108, 111] 0
          (buildTxInputs rng rng.tokenBlind 0 b.inputs),
        buildTxOutputs rng rng.tokenBlind b.outputs.length
          (buildTxClearInputs rng rng.tokenBlind 0 b.clear_inputs)
          (b.inputs.map (fun input => input.note.value_blind)) 0 []
          b.outputs⟩ := by
  have hall : (buildTxOutputs rng rng.tokenBlind b.outputs.length
      (buildTxClearInputs rng rng.tokenBlind 0 b.clear_inputs)
      (b.inputs.map (fun input => input.note.value_blind)) 0 []
      b.outputs).all
        (fun output => output.mint_proof.verify output.revealed) = true := by
    rw [List.all_eq_true]
    intro o ho
    rcases mem_buildTxOutputs rng rng.tokenBlind b.outputs.length _ _
      b.outputs 0 [] o ho with ⟨sp, _, n, bl, rfl⟩
    exact mint_proof_verify_self _
  simp only [TransactionBuilder.build, if_neg h, hall, if_true,
    Transaction.partial_encode]

theorem inputBurnProof_recomputed_coin (sp : ShieldedInputSpec q)
    (tb s : F q) : (inputBurnProof sp tb s).recomputed_coin = sp.coin := rfl

/-- Destructuring a successful `build`: the returned transaction is the
explicit record of `build_eq_some`. -/
theorem build_some_elim (b : TransactionBuilder q) (rng : Rng q)
    (tx : Transaction q) (h : b.build rng = some tx) :
    tx = ⟨signClearInputs [104, 101, 108, 108, 111]
        (buildTxClearInputs rng rng.tokenBlind 0 b.clear_inputs)
        b.clear_inputs,
      signTxInputs rng [104, 101, 108, 108, 111] 0
        (buildTxInputs rng rng.tokenBlind 0 b.inputs),
      buildTxOutputs rng rng.tokenBlind b.outputs.length
        (buildTxClearInputs rng rng.tokenBlind 0 b.clear_inputs)
        (b.inputs.map (fun input => input.note.value_blind)) 0 []
        b.outputs⟩ := by
  have hout := build_outputs_ne_nil b rng tx h
  have hb := build_eq_some b rng hout
  rw [h] at hb
  exact Option.some.inj hb

/-- Gate 1 for built transactions: when the declared values balance, the
value commitments cancel to the identity. -/
theorem built_check_value_commits (b : TransactionBuilder q) (rng : Rng q)
    (tx : Transaction q) (h : b.build rng = some tx)
    (hbal : (b.clear_inputs.map (fun sp => sp.value)).sum
        + (b.inputs.map (fun sp => sp.note.value)).sum
      = (b.outputs.map (fun sp => sp.value)).sum) :
    tx._check_value_commits = true := by
  have hout := build_outputs_ne_nil b rng tx h
  obtain rfl := build_some_elim b rng tx h
  have htel := buildTxOutputs_blind_sum rng rng.tokenBlind b.outputs.length
    (buildTxClearInputs rng rng.tokenBlind 0 b.clear_inputs)
    (b.inputs.map (fun input => input.note.value_blind)) b.outputs 0 []
    (by simp) hout
  simp only [List.sum_nil, zero_add] at htel
  simp only [check_value_commits_iff]
  rw [sum_decode_signClear_build rng rng.tokenBlind _ b.clear_inputs 0,
    sum_decode_signTx_build rng rng.tokenBlind _ b.inputs 0,
    buildTxOutputs_decode_sum rng rng.tokenBlind b.outputs.length _ _
      b.outputs 0 [], htel]
  linear_combination hbal

/-- Gate 2 for built transactions: when every shielded spec's coin is in its
coin set, every burn proof and every mint proof verifies. -/
theorem built_check_proofs (b : TransactionBuilder q) (rng : Rng q)
    (tx : Transaction q) (h : b.build rng = some tx)
    (hcoins : ∀ sp ∈ b.inputs, sp.coin ∈ sp.all_coins) :
    tx._check_proofs = true := by
  obtain rfl := build_some_elim b rng tx h
  rw [Transaction._check_proofs, Bool.and_eq_true]
  constructor
  · rw [List.all_eq_true]
    intro ti hti
    rcases mem_signTx_build rng rng.tokenBlind _ b.inputs 0 ti hti with
      ⟨sp, hsp, n, rfl⟩
    show (inputBurnProof sp rng.tokenBlind (rng.sigSecret n)).verify
      (inputBurnProof sp rng.tokenBlind (rng.sigSecret n)).get_revealed = true
    rw [burn_proof_verify_self, decide_eq_true_eq,
      inputBurnProof_recomputed_coin]
    exact hcoins sp hsp
  · rw [List.all_eq_true]
    intro o ho
    rcases mem_buildTxOutputs rng rng.tokenBlind b.outputs.length _ _
      b.outputs 0 [] o ho with ⟨sp, _, n, bl, rfl⟩
    exact mint_proof_verify_self _

/-- All token commitments of a built transaction equal the commitment of the
shared token id under the freshly drawn `token_blind`. -/
theorem built_token_commitments_all (b : TransactionBuilder q) (rng : Rng q)
    (tx : Transaction q) (t : F q) (h : b.build rng = some tx)
    (htc : ∀ sp ∈ b.clear_inputs, sp.token_id = t)
    (hti : ∀ sp ∈ b.inputs, sp.note.token_id = t)
    (hto : ∀ sp ∈ b.outputs, sp.token_id = t) :
    ∀ P ∈ tx.tokenCommitments,
      P = Crypto.pedersen_encrypt t rng.tokenBlind := by
  obtain rfl := build_some_elim b rng tx h
  intro P hP
  simp only [Transaction.tokenCommitments, List.mem_append, List.mem_map] at hP
  rcases hP with (⟨c, hc, rfl⟩ | ⟨ti, hti2, rfl⟩) | ⟨o, ho, rfl⟩
  · rcases mem_signClear_build rng rng.tokenBlind _ b.clear_inputs 0 c hc with
      ⟨sp, hsp, n, rfl⟩
    show Crypto.pedersen_encrypt sp.token_id rng.tokenBlind = _
    rw [htc sp hsp]
  · rcases mem_signTx_build rng rng.tokenBlind _ b.inputs 0 ti hti2 with
      ⟨sp, hsp, n, rfl⟩
    show Crypto.pedersen_encrypt sp.note.token_id rng.tokenBlind = _
    rw [hti sp hsp]
  · rcases mem_buildTxOutputs rng rng.tokenBlind b.outputs.length _ _
      b.outputs 0 [] o ho with ⟨sp, hsp, n, bl, rfl⟩
    show Crypto.pedersen_encrypt sp.token_id rng.tokenBlind = _
    rw [hto sp hsp]

/-- A transaction all of whose token commitments agree passes
`_verify_token_commitments`. -/
theorem verify_token_commitments_of_all (tx : Transaction q) (T : Point q)
    (h1 : ∀ P ∈ tx.tokenCommitments, P = T) (hne : tx.outputs ≠ []) :
    tx._verify_token_commitments = some true := by
  cases houts : tx.outputs with
  | nil => exact absurd houts hne
  | cons o0 orest =>
    have hmem : ∀ o ∈ tx.outputs, o.revealed.token_commit = T := by
      intro o ho
      exact h1 _ (by
        simp only [Transaction.tokenCommitments, List.mem_append, List.mem_map]
        exact Or.inr ⟨o, ho, rfl⟩)
    have hanchor : o0.revealed.token_commit = T :=
      hmem o0 (by rw [houts]; exact List.mem_cons_self o0 orest)
    simp only [Transaction._verify_token_commitments, houts,
      Option.some.injEq]
    simp only [List.all_eq_true, Bool.and_eq_true, decide_eq_true_eq]
    refine ⟨⟨?_, ?_⟩, ?_⟩
    · intro c hc
      have : Crypto.pedersen_encrypt c.token_id c.token_blind = T := h1 _ (by
        simp only [Transaction.tokenCommitments, List.mem_append, List.mem_map]
        exact Or.inl (Or.inl ⟨c, hc, rfl⟩))
      rw [this, hanchor]
    · intro ti hti
      have : ti.revealed.token_commit = T := h1 _ (by
        simp only [Transaction.tokenCommitments, List.mem_append, List.mem_map]
        exact Or.inl (Or.inr ⟨ti, hti, rfl⟩))
      rw [this, hanchor]
    · intro o ho
      have ho2 : o ∈ tx.outputs := by rw [houts]; exact ho
      rw [hmem o ho2, hanchor]

/-- Built transactions have as many outputs as the builder had specs, so a
successful `build` yields a nonempty output list. -/
theorem built_outputs_ne_nil (b : TransactionBuilder q) (rng : Rng q)
    (tx : Transaction q) (h : b.build rng = some tx) : tx.outputs ≠ [] := by
  have hout := build_outputs_ne_nil b rng tx h
  obtain rfl := build_some_elim b rng tx h
  intro hnil
  have hlen := congrArg List.length hnil
  rw [buildTxOutputs_length] at hlen
  exact hout (List.length_eq_zero.mp hlen)

/-- Gate 4 for built transactions: every signature verifies against its
disclosed public key. -/
theorem built_signatures_pass (b : TransactionBuilder q) (rng : Rng q)
    (tx : Transaction q) (h : b.build rng = some tx) :
    tx.signatures_pass = true := by
  obtain rfl := build_some_elim b rng tx h
  simp only [Transaction.signatures_pass, Transaction.partial_encode,
    Bool.and_eq_true]
  constructor
  · rw [List.all_eq_true]
    intro c hc
    rcases mem_signClear_build rng rng.tokenBlind _ b.clear_inputs 0 c hc with
      ⟨sp, hsp, n, rfl⟩
    exact Crypto.verify_sign _ _
  · rw [List.all_eq_true]
    intro ti hti
    rcases mem_signTx_build rng rng.tokenBlind _ b.inputs 0 ti hti with
      ⟨sp, hsp, n, rfl⟩
    exact Crypto.verify_sign _ _

/-- `verify` returns `(True, None)` when all four gates pass. -/
theorem verify_of_gates (tx : Transaction q)
    (h1 : tx._check_value_commits = true) (h2 : tx._check_proofs = true)
    (h3 : tx._verify_token_commitments = some true)
    (h4 : tx.signatures_pass = true) :
    tx.verify = some (VerifyResult.pair true none) := by
  simp [Transaction.verify, h1, h2, h3, h4]

/-- `verify` reports the proof gate when the value gate passes and a proof
fails. -/
theorem verify_proofs_failed (tx : Transaction q)
    (h1 : tx._check_value_commits = true) (h2 : tx._check_proofs = false) :
    tx.verify = some (VerifyResult.pair false (some "proofs failed to verify")) := by
  simp [Transaction.verify, h1, h2]

end BuilderLemmas

section Claims

open TransactionBuilder

/-- C1: for every well-formed set of builder specs with at least one output
(so `build` returns a transaction), whose shielded-input coins are members
of their `all_coins` sets, all sharing one `token_id`, and whose clear-input
values plus shielded-input note values sum to the output values, the
transaction returned by `TransactionBuilder.build` satisfies
`verify() == (True, None)`. -/
theorem build_verify_round_trip (q : Nat) (b : TransactionBuilder q)
    (rng : Rng q) (t : F q) (tx : Transaction q)
    (h : b.build rng = some tx)
    (hcoins : ∀ sp ∈ b.inputs, sp.coin ∈ sp.all_coins)
    (htc : ∀ sp ∈ b.clear_inputs, sp.token_id = t)
    (hti : ∀ sp ∈ b.inputs, sp.note.token_id = t)
    (hto : ∀ sp ∈ b.outputs, sp.token_id = t)
    (hbal : (b.clear_inputs.map (fun sp => sp.value)).sum
        + (b.inputs.map (fun sp => sp.note.value)).sum
      = (b.outputs.map (fun sp => sp.value)).sum) :
    tx.verify = some (VerifyResult.pair true none) :=
  verify_of_gates tx (built_check_value_commits b rng tx h hbal)
    (built_check_proofs b rng tx h hcoins)
    (verify_token_commitments_of_all tx
      (Crypto.pedersen_encrypt t rng.tokenBlind)
      (built_token_commitments_all b rng tx t h htc hti hto)
      (built_outputs_ne_nil b rng tx h))
    (built_signatures_pass b rng tx h)

theorem build_verify_round_trip_witness :
    txRT.verify = some (VerifyResult.pair true none) :=
  build_verify_round_trip 5 bRT rngW 2 txRT (by decide) (by decide)
    (by decide) (by decide) (by decide) (by decide)

/-- C2 counterexample: `build` on a clear input of value 1 against an output
of value 2 yields a transaction whose `_check_value_commits` is false, so
the claim fails without a value-balance hypothesis. -/
theorem build_value_commits_counterexample :
    (bImb.build rngW).map (fun tx => tx._check_value_commits)
      = some false := by decide

/-- C2 (amended): for every transaction produced by `build` from specs whose
clear-input values plus shielded-input note values equal the output values
(mod the scalar-field order), the clear inputs' commitments plus the
shielded inputs' revealed value commitments minus the outputs' revealed
value commitments cancel to the group identity: `_check_value_commits`
returns true. -/
theorem build_value_commits_balanced (q : Nat) (b : TransactionBuilder q)
    (rng : Rng q) (tx : Transaction q) (h : b.build rng = some tx)
    (hbal : (b.clear_inputs.map (fun sp => sp.value)).sum
        + (b.inputs.map (fun sp => sp.note.value)).sum
      = (b.outputs.map (fun sp => sp.value)).sum) :
    tx._check_value_commits = true :=
  built_check_value_commits b rng tx h hbal

theorem build_value_commits_balanced_witness :
    txRT._check_value_commits = true :=
  build_value_commits_balanced 5 bRT rngW txRT (by decide) (by decide)

/-- C3: for every transaction produced by `build` from specs all carrying
the same `token_id`, every token commitment (recomputed clear-input
commitments, shielded inputs' and outputs' revealed ones) equals the
commitment of that token id under the shared fresh blind, so they are all
pairwise equal — in particular all equal the first output's — and
`_verify_token_commitments` returns true. -/
theorem build_token_uniformity (q : Nat) (b : TransactionBuilder q)
    (rng : Rng q) (t : F q) (tx : Transaction q)
    (h : b.build rng = some tx)
    (htc : ∀ sp ∈ b.clear_inputs, sp.token_id = t)
    (hti : ∀ sp ∈ b.inputs, sp.note.token_id = t)
    (hto : ∀ sp ∈ b.outputs, sp.token_id = t) :
    (∀ P ∈ tx.tokenCommitments,
        P = Crypto.pedersen_encrypt t rng.tokenBlind)
      ∧ List.Pairwise (fun P Q => P = Q) tx.tokenCommitments
      ∧ tx._verify_token_commitments = some true := by
  have hall := built_token_commitments_all b rng tx t h htc hti hto
  exact ⟨hall,
    List.pairwise_of_forall_mem_list
      (fun x hx y hy => (hall x hx).trans (hall y hy).symm),
    verify_token_commitments_of_all tx _ hall (built_outputs_ne_nil b rng tx h)⟩

theorem build_token_uniformity_witness :
    (∀ P ∈ txRT.tokenCommitments,
        P = Crypto.pedersen_encrypt 2 rngW.tokenBlind)
      ∧ List.Pairwise (fun P Q => P = Q) txRT.tokenCommitments
      ∧ txRT._verify_token_commitments = some true :=
  build_token_uniformity 5 bRT rngW 2 txRT (by decide) (by decide)
    (by decide) (by decide)

/-- C4 counterexample: `txSig` passes the value, proof and token gates but
has a bad signature; `verify` returns the bare boolean `False` of the
signature loops, not a `(false, null)` pair. -/
theorem verify_signature_bare_false :
    txSig.verify = some (VerifyResult.bare false)
      ∧ txSig._check_value_commits = true
      ∧ txSig._check_proofs = true
      ∧ txSig._verify_token_commitments = some true
      ∧ txSig.verify ≠ some (VerifyResult.pair false none) := by decide

/-- C4 (amended): `verify` runs the value-commit, proof and token gates in
that order, each failure short-circuiting with its reason string as a pair;
after the three gates, success returns the pair `(True, None)`, but a
signature-verification failure returns the bare boolean `False` (not a
pair). -/
theorem verify_gate_characterization (q : Nat) (tx : Transaction q) :
    (tx.verify = some (VerifyResult.pair false (some "value commits do not match"))
      ↔ tx._check_value_commits = false)
    ∧ (tx.verify = some (VerifyResult.pair false (some "proofs failed to verify"))
      ↔ tx._check_value_commits = true ∧ tx._check_proofs = false)
    ∧ (tx.verify = some (VerifyResult.pair false (some "token ID mismatch"))
      ↔ tx._check_value_commits = true ∧ tx._check_proofs = true
          ∧ tx._verify_token_commitments = some false)
    ∧ (tx.verify = some (VerifyResult.pair true none)
      ↔ tx._check_value_commits = true ∧ tx._check_proofs = true
          ∧ tx._verify_token_commitments = some true
          ∧ tx.signatures_pass = true)
    ∧ (tx.verify = some (VerifyResult.bare false)
      ↔ tx._check_value_commits = true ∧ tx._check_proofs = true
          ∧ tx._verify_token_commitments = some true
          ∧ tx.signatures_pass = false) := by
  cases hv : tx._check_value_commits <;>
    cases hp : tx._check_proofs <;>
    cases hs : tx.signatures_pass <;>
    rcases htk : tx._verify_token_commitments with _ | b
  all_goals try cases b
  all_goals simp [Transaction.verify, hv, hp, htk, hs]

theorem verify_gate_characterization_witness :
    txSig.verify = some (VerifyResult.bare false) :=
  (verify_gate_characterization 5 txSig).2.2.2.2.mpr (by decide)

/-- C5 counterexample: in the transaction `bRT` builds, the shielded
input's burn proof carries `token_blind = rngW.tokenBlind = 2`, not the
note's own `token_blind = 1`: the builder does NOT use the note's own
token blind. -/
theorem build_burn_token_blind_counterexample :
    (bRT.build rngW).map (fun tx => tx.inputs.map (fun ti =>
        decide (ti.burn_proof.token_blind = noteW.token_blind)))
      = some [false] := by decide

/-- C5 (amended): for every shielded input spec, `build` constructs that
input's `BurnProof` over the note's witness using the note's own
`value_blind` — but with the builder's freshly sampled shared `token_blind`
(`rng.tokenBlind`), not the note's own `token_blind` — and attaches the
proof's own revealed view. -/
theorem build_burn_proof_witness_fields (q : Nat) (b : TransactionBuilder q)
    (rng : Rng q) (tx : Transaction q) (h : b.build rng = some tx) :
    List.Forall₂ (fun (ti : TxInput q) (sp : ShieldedInputSpec q) =>
        ∃ s : F q, ti.burn_proof = inputBurnProof sp rng.tokenBlind s
          ∧ ti.revealed = ti.burn_proof.get_revealed)
      tx.inputs b.inputs := by
  obtain rfl := build_some_elim b rng tx h
  refine (forall2_signTx_build rng rng.tokenBlind
    [104, 101, 108, 108, 111] b.inputs 0).imp ?_
  intro a sp hx
  rcases hx with ⟨s, h1, _, h3⟩
  exact ⟨s, h1, h3⟩

theorem build_burn_proof_witness_fields_witness :
    List.Forall₂ (fun (ti : TxInput 5) (sp : ShieldedInputSpec 5) =>
        ∃ s : F 5, ti.burn_proof = inputBurnProof sp rngW.tokenBlind s
          ∧ ti.revealed = ti.burn_proof.get_revealed)
      txRT.inputs bRT.inputs :=
  build_burn_proof_witness_fields 5 bRT rngW txRT (by decide)

/-- C6: `partial_encode` is the constant byte string `b"hello"`; `txZero`
and `txZero2` differ in a clear input's `value` (a non-signature field,
their signatures agree) yet share the encoding, so the encoding does not
cover the non-signature fields. -/
theorem partial_encode_constant_collision :
    txZero.partial_encode = txZero2.partial_encode
      ∧ txZero ≠ txZero2
      ∧ txZero.clear_inputs.map (fun c => c.signature)
          = txZero2.clear_inputs.map (fun c => c.signature) := by decide

/-- C7: a burn proof whose recomputed coin is not a member of its
`all_coins` verifies against no claim, and a transaction containing such a
shielded input whose value commitments balance fails `verify` with the pair
`(False, "proofs failed to verify")`. -/
theorem foreign_note_rejection (q : Nat) :
    (∀ (bp : BurnProof q) (claim : BurnRevealed q),
        bp.recomputed_coin ∉ bp.all_coins → bp.verify claim = false)
    ∧ (∀ tx : Transaction q,
        (∃ ti ∈ tx.inputs,
          ti.burn_proof.recomputed_coin ∉ ti.burn_proof.all_coins) →
        tx._check_value_commits = true →
        tx.verify
          = some (VerifyResult.pair false (some "proofs failed to verify"))) := by
  constructor
  · exact fun bp claim h => BurnProof.verify_of_foreign_coin bp claim h
  · intro tx hex hv
    obtain ⟨ti, hti, hcoin⟩ := hex
    apply verify_proofs_failed tx hv
    rw [Transaction._check_proofs]
    have hfail : tx.inputs.all
        (fun input => input.burn_proof.verify input.revealed) = false := by
      cases hall : tx.inputs.all
          (fun input => input.burn_proof.verify input.revealed) with
      | false => rfl
      | true =>
        have := List.all_eq_true.mp hall ti hti
        rw [BurnProof.verify_of_foreign_coin ti.burn_proof ti.revealed hcoin]
          at this
        exact absurd this (by simp)
    rw [hfail, Bool.false_and]

theorem foreign_note_rejection_witness :
    bpF.verify claimF = false
      ∧ txFor.verify
          = some (VerifyResult.pair false (some "proofs failed to verify")) :=
  ⟨(foreign_note_rejection 5).1 bpF claimF (by decide),
    (foreign_note_rejection 5).2 txFor (by decide) (by decide)⟩

/-- C8: in a built transaction, the outputs before the last carry exactly
the freshly drawn random blinds (the rng stream values at their indices),
and the last output's `value_blind` is the clear-input blinds plus the
shielded-input note blinds minus the earlier outputs' blinds, in the scalar
field (mod q). -/
theorem build_output_value_blinds (q : Nat) (b : TransactionBuilder q)
    (rng : Rng q) (tx : Transaction q) (h : b.build rng = some tx) :
    ((tx.outputs.take (tx.outputs.length - 1)).map
        (fun o => o.enc_note.value_blind)
      = (List.range (tx.outputs.length - 1)).map rng.outBlind)
    ∧ ∀ hne : tx.outputs ≠ [],
        (tx.outputs.getLast hne).enc_note.value_blind
          = (tx.clear_inputs.map (fun c => c.value_blind)).sum
            + (b.inputs.map (fun sp => sp.note.value_blind)).sum
            - ((tx.outputs.take (tx.outputs.length - 1)).map
                (fun o => o.enc_note.value_blind)).sum := by
  have hout := build_outputs_ne_nil b rng tx h
  obtain rfl := build_some_elim b rng tx h
  constructor
  · show ((buildTxOutputs rng rng.tokenBlind b.outputs.length
        (buildTxClearInputs rng rng.tokenBlind 0 b.clear_inputs)
        (b.inputs.map (fun input => input.note.value_blind)) 0 []
        b.outputs).take _).map _ = _
    rw [buildTxOutputs_length, List.range_eq_range']
    exact buildTxOutputs_take_blinds rng rng.tokenBlind b.outputs.length _ _
      b.outputs 0 [] (by simp)
  · intro hne
    have hsum := sum_map_take_getLast (fun o => o.enc_note.value_blind)
      (buildTxOutputs rng rng.tokenBlind b.outputs.length
        (buildTxClearInputs rng rng.tokenBlind 0 b.clear_inputs)
        (b.inputs.map (fun input => input.note.value_blind)) 0 []
        b.outputs) hne
    have htel := buildTxOutputs_blind_sum rng rng.tokenBlind b.outputs.length
      (buildTxClearInputs rng rng.tokenBlind 0 b.clear_inputs)
      (b.inputs.map (fun input => input.note.value_blind)) b.outputs 0 []
      (by simp) hout
    simp only [List.sum_nil, zero_add] at htel
    rw [htel] at hsum
    show _ = ((signClearInputs [104, 101, 108, 108, 111]
        (buildTxClearInputs rng rng.tokenBlind 0 b.clear_inputs)
        b.clear_inputs).map (fun c => c.value_blind)).sum + _ - _
    rw [blinds_signClear_build]
    linear_combination -hsum

theorem build_output_value_blinds_witness :
    ((txRT.outputs.take (txRT.outputs.length - 1)).map
        (fun o => o.enc_note.value_blind)
      = (List.range (txRT.outputs.length - 1)).map rngW.outBlind)
    ∧ (txRT.outputs.getLast (by decide)).enc_note.value_blind
        = (txRT.clear_inputs.map (fun c => c.value_blind)).sum
          + (bRT.inputs.map (fun sp => sp.note.value_blind)).sum
          - ((txRT.outputs.take (txRT.outputs.length - 1)).map
              (fun o => o.enc_note.value_blind)).sum :=
  ⟨(build_output_value_blinds 5 bRT rngW txRT (by decide)).1,
    (build_output_value_blinds 5 bRT rngW txRT (by decide)).2 (by decide)⟩

/-- C9 counterexample: `txZero` has zero outputs yet `verify` returns the
value gate's normal failure pair, not an empty-outputs error: an earlier
gate's failure short-circuits before the empty-outputs assertion. -/
theorem zero_outputs_counterexample :
    txZero.outputs = []
      ∧ txZero.verify
          = some (VerifyResult.pair false (some "value commits do not match")) := by
  decide

/-- C9 (amended): a transaction with zero outputs is never verified
normally by the token gate: `_verify_token_commitments` hits its explicit
non-empty assertion (modelled `none`) before dereferencing `outputs[0]`,
and a zero-output transaction that passes the value-commit and proof gates
makes `verify` abort with that assertion; but a zero-output transaction
failing an earlier gate returns that gate's normal failure instead. -/
theorem zero_outputs_assertion (q : Nat) (tx : Transaction q)
    (h : tx.outputs = []) :
    tx._verify_token_commitments = none
      ∧ (tx._check_value_commits = true → tx._check_proofs = true →
          tx.verify = none) := by
  constructor
  · simp [Transaction._verify_token_commitments, h]
  · intro h1 h2
    simp [Transaction.verify, h1, h2, Transaction._verify_token_commitments, h]

theorem zero_outputs_assertion_witness :
    txEmptyW._verify_token_commitments = none ∧ txEmptyW.verify = none :=
  ⟨(zero_outputs_assertion 5 txEmptyW rfl).1,
    (zero_outputs_assertion 5 txEmptyW rfl).2 (by decide) (by decide)⟩

/-- C10: a burn proof checked against its own revealed view succeeds if and
only if the coin recomputed from its witness is a member of `all_coins`:
the five field-equality comparisons of the self round-trip always succeed,
so membership is the sole way self-verification can fail. -/
theorem burn_self_verification (q : Nat) (bp : BurnProof q) :
    bp.verify bp.get_revealed
      = decide (bp.recomputed_coin ∈ bp.all_coins) :=
  burn_proof_verify_self bp

end Claims

end DarkfiTx
